import Mathlib

/-!
# QueryOwl — verification of the frontend query/export/connection logic

Shallow embedding of the TypeScript/Svelte sources of the QueryOwl SQL
client, together with proofs about the embedded operations.

Embedded components:
* the connections store (`saveConnection`, `deleteConnection`,
  `testConnection`, `connectToDatabase`, `disconnectFromDatabase`);
* the DDL classifier `isSchemaAffectingQuery` and the schema-refresh
  decision of `executeQuery`;
* the query-tab state machine (`createNewTab` / `closeTab`);
* the query-history update `addToHistory`;
* the export decision of `handleExport` and the CSV writers
  (`exportCurrentAsCSV` of the export dialog and `exportToCsv` of the
  data grid), plus a standard CSV reader used to study round-trips.
-/

namespace QueryOwl

/-! ## JavaScript-level helpers

JS `String.prototype.trim` strips whitespace from both ends; we model the
ASCII fragment relevant to SQL text.  Character-list based so proofs can
compute.
-/

/-- Whitespace characters stripped by the JS `trim` used in the sources. -/
def isJsWhitespace (c : Char) : Bool :=
  c = ' ' || c = '\t' || c = '\n' || c = '\r'

/-- JS `String.prototype.trim` on the underlying character list. -/
def jsTrimList (cs : List Char) : List Char :=
  ((cs.dropWhile isJsWhitespace).reverse.dropWhile isJsWhitespace).reverse

/-- JS `sql.trim()`. -/
def jsTrim (s : String) : String :=
  ⟨jsTrimList s.data⟩

/-- JS `String.prototype.toUpperCase` (ASCII fragment). -/
def jsToUpper (s : String) : String :=
  ⟨s.data.map Char.toUpper⟩

/-- JS `s.includes(c)` for a single character. -/
def jsIncludesChar (s : String) (c : Char) : Bool :=
  s.data.contains c

/-- JS `s.startsWith(p)`. -/
def jsStartsWith (s p : String) : Bool :=
  s.data.take p.data.length = p.data

/-! ## Dynamic values

Result-row cells are dynamic JS values.  The export/formatting code
distinguishes `null`, objects (JSON), and scalar primitives, which it
renders with `String(value)`.  A `vJson` carries its `JSON.stringify`
serialization, which is all the export code uses of it.
-/

/-- A dynamic cell value as discriminated by the export code. -/
inductive JsValue where
  | vNull : JsValue
  | vStr (s : String) : JsValue
  | vNum (n : Int) : JsValue
  | vBool (b : Bool) : JsValue
  | vJson (serialization : String) : JsValue
deriving Repr, DecidableEq

/-- JS `String(value)` for the scalar primitives (the export code never
applies it to `null` or objects, which are intercepted earlier). -/
def jsString : JsValue → String
  | .vNull => "null"
  | .vStr s => s
  | .vNum n => toString n
  | .vBool b => if b then "true" else "false"
  | .vJson j => j

/-- `true` for values that reach the `String(value)` branch of the
exporters (neither `null` nor an object). -/
def isScalar : JsValue → Bool
  | .vNull => false
  | .vJson _ => false
  | _ => true

/-! ## Connections store (`src/lib/stores/connections.ts`) -/

/-- `DatabaseConnection` from `src/lib/types/database.ts`. -/
structure DatabaseConnection where
  id : String
  name : String
  host : String
  port : Int
  database : String
  username : String
  password : Option String := none
  ssl : Bool := false
  createdAt : String := ""
  lastConnected : Option String := none
  color : Option String := none
deriving Repr, DecidableEq

/-- `ConnectionStatus` from `src/lib/types/database.ts`. -/
structure ConnectionStatus where
  isConnected : Bool
  activeConnection : Option DatabaseConnection
  error : Option String := none
deriving Repr, DecidableEq

/-- `TestConnectionResponse` from `src/lib/types/database.ts`. -/
structure TestConnectionResponse where
  success : Bool
  error : Option String := none
deriving Repr, DecidableEq

/-- The two Svelte stores of `connections.ts`: the stored connection
list and the connection status. -/
structure StoreState where
  connections : List DatabaseConnection
  connectionStatus : ConnectionStatus
deriving Repr, DecidableEq

/-- Outcome of an awaited backend `invoke`: either a value or a thrown
error, already stringified (`String(error)`). -/
abbrev Invoked (α : Type) := Except String α

/-- `deleteConnection(id)`: on backend success, drop the connection from
the stored list and clear the status when the deleted id was active; on
backend failure the stores are untouched and the error is rethrown. -/
def deleteConnection (s : StoreState) (outcome : Invoked Unit) (id : String) :
    StoreState × Invoked Unit :=
  match outcome with
  | .error e => (s, .error e)
  | .ok _ =>
    let conns := s.connections.filter (fun c => c.id ≠ id)
    let status :=
      if s.connectionStatus.activeConnection.map (fun c => c.id) = some id then
        { isConnected := false, activeConnection := none, error := none }
      else s.connectionStatus
    ({ connections := conns, connectionStatus := status }, .ok ())

/-- `testConnection(connection)`: forwards the backend response; a thrown
error is converted to `\x7b success: false, error \x7d`.  The function
reads and writes neither store. -/
def testConnection (s : StoreState) (outcome : Invoked TestConnectionResponse) :
    StoreState × TestConnectionResponse :=
  match outcome with
  | .ok r => (s, r)
  | .error e => (s, { success := false, error := some e })

/-- `connectToDatabase(connection)`.  `connectOutcome` is the backend
`connect_to_database` invoke, `touchOutcome` the follow-up
`update_last_connected` invoke, `now` the current timestamp.  On any
thrown error the catch block resets the status to disconnected with the
stringified error and rethrows. -/
def connectToDatabase (s : StoreState) (conn : DatabaseConnection)
    (connectOutcome : Invoked Unit) (touchOutcome : Invoked Unit) (now : String) :
    StoreState × Invoked Unit :=
  match connectOutcome with
  | .error e =>
    ({ s with connectionStatus :=
        { isConnected := false, activeConnection := none, error := some e } },
     .error e)
  | .ok _ =>
    let s1 : StoreState :=
      { s with connectionStatus :=
          { isConnected := true, activeConnection := some conn, error := none } }
    match touchOutcome with
    | .error e =>
      ({ s1 with connectionStatus :=
          { isConnected := false, activeConnection := none, error := some e } },
       .error e)
    | .ok _ =>
      ({ s1 with connections :=
          s1.connections.map (fun c =>
            if c.id = conn.id then { c with lastConnected := some now } else c) },
       .ok ())

/-! ## Connection form validation (`ConnectionManager.svelte`) -/

/-- `CreateConnectionRequest` from `src/lib/types/database.ts`. -/
structure CreateConnectionRequest where
  name : String
  host : String
  port : Int
  database : String
  username : String
  password : String
  ssl : Bool := false
  color : Option String := none
deriving Repr, DecidableEq

/-- The guard of `handleSubmit`: the submission proceeds to persistence
iff none of `name`, `host`, `database`, `username`, `password` is falsy
(the empty string).  The port field is not inspected. -/
def handleSubmitProceeds (f : CreateConnectionRequest) : Bool :=
  !(f.name = "" || f.host = "" || f.database = "" || f.username = "" ||
    f.password = "")

/-! ## Statement classifier and schema refresh (`QueryInterface.svelte`) -/

/-- A result row as far as the classifier looks at it: acknowledgment
rows carry a `status` field, tabular rows do not. -/
structure ResultRow where
  status : Option String := none
deriving Repr, DecidableEq

/-- The `isSuccessful` test of `isSchemaAffectingQuery`: exactly one row
whose `status` field is the string `success`. -/
def resultsSuccessful (results : List ResultRow) : Bool :=
  results.length = 1 && ((results.headD {}).status = some "success")

/-- The DDL leading-keyword prefixes hard-coded in
`isSchemaAffectingQuery`, in source order. -/
def ddlLeaders : List String :=
  ["CREATE TABLE", "CREATE VIEW", "CREATE MATERIALIZED VIEW",
   "CREATE INDEX", "CREATE UNIQUE INDEX", "CREATE FUNCTION",
   "CREATE PROCEDURE", "CREATE SEQUENCE", "CREATE TYPE", "CREATE SCHEMA",
   "DROP TABLE", "DROP VIEW", "DROP MATERIALIZED VIEW", "DROP INDEX",
   "DROP FUNCTION", "DROP PROCEDURE", "DROP SEQUENCE", "DROP TYPE",
   "DROP SCHEMA",
   "ALTER TABLE", "ALTER VIEW", "ALTER FUNCTION", "ALTER SEQUENCE",
   "ALTER TYPE", "ALTER SCHEMA",
   "RENAME TABLE", "TRUNCATE TABLE"]

/-- `isSchemaAffectingQuery(sql, results)`: requires a single
`success`-status row, then prefix-matches the trimmed upper-cased SQL
against the hard-coded DDL leaders. -/
def isSchemaAffectingQuery (sql : String) (results : List ResultRow) : Bool :=
  if resultsSuccessful results then
    let sqlUpper := jsToUpper (jsTrim sql)
    ddlLeaders.any (fun p => jsStartsWith sqlUpper p)
  else false

/-- In `executeQuery`, after a response arrives, the schema is refreshed
(`get_database_schema` re-invoked via `refreshDatabaseSchema`) exactly
when `isSchemaAffectingQuery(sql.trim(), results)` holds. -/
def executeQueryRefreshesSchema (sql : String) (results : List ResultRow) : Bool :=
  isSchemaAffectingQuery (jsTrim sql) results

/-- Modelled from the spec: the leader table the specification lists for
schema invalidation — the full product of CREATE/DROP/ALTER with TABLE,
VIEW, MATERIALIZED VIEW, INDEX, UNIQUE INDEX, FUNCTION, PROCEDURE,
SEQUENCE, TYPE, SCHEMA, plus RENAME TABLE and TRUNCATE TABLE.  Used only
to compare the claim against the code's `ddlLeaders`. -/
def specClaimedLeaders : List String :=
  (["CREATE", "DROP", "ALTER"].flatMap (fun verb =>
    ["TABLE", "VIEW", "MATERIALIZED VIEW", "INDEX", "UNIQUE INDEX",
     "FUNCTION", "PROCEDURE", "SEQUENCE", "TYPE", "SCHEMA"].map
      (fun obj => verb ++ " " ++ obj))) ++
  ["RENAME TABLE", "TRUNCATE TABLE"]

/-! ## Query tabs (`QueryInterface.svelte`) -/

/-- The tab-related component state: `tabCounter` and the tab list with
the active tab id.  Tab `n` stands for the id string `tab` ++ `n`. -/
structure TabState where
  tabCounter : Nat
  tabs : List Nat
  activeTabId : Nat
deriving Repr, DecidableEq

/-- `createNewTab()`: bump the counter, append a tab with the fresh id,
and activate it. -/
def createNewTab (s : TabState) : TabState :=
  let counter := s.tabCounter + 1
  { tabCounter := counter, tabs := s.tabs ++ [counter], activeTabId := counter }

/-- `closeTab(id)`: no-op when the id is absent; otherwise remove the
tab; when it was active, activate
`tabs[Math.max(0, Math.min(index - 1, tabs.length - 1))]` of the
remaining list, or create a fresh tab when none remain. -/
def closeTab (s : TabState) (id : Nat) : TabState :=
  if id ∈ s.tabs then
    if s.activeTabId = id then
      if 0 < (s.tabs.filter (fun t => t ≠ id)).length then
        { s with
          tabs := s.tabs.filter (fun t => t ≠ id),
          activeTabId := (s.tabs.filter (fun t => t ≠ id)).getD
            ((max 0 (min ((s.tabs.findIdx (fun t => t = id) : Int) - 1)
              (((s.tabs.filter (fun t => t ≠ id)).length : Int) - 1))).toNat)
            s.activeTabId }
      else
        createNewTab { s with tabs := s.tabs.filter (fun t => t ≠ id) }
    else
      { s with tabs := s.tabs.filter (fun t => t ≠ id) }
  else s

/-- A user action on the tab strip. -/
inductive TabOp where
  | create : TabOp
  | close (id : Nat) : TabOp
deriving Repr, DecidableEq

/-- Apply one tab action. -/
def applyTabOp (s : TabState) : TabOp → TabState
  | .create => createNewTab s
  | .close id => closeTab s id

/-- Apply a sequence of tab actions. -/
def runTabOps (s : TabState) : List TabOp → TabState
  | [] => s
  | op :: ops => runTabOps (applyTabOp s op) ops

/-- The state `initializeTabs()` builds when no stored tabs exist: one
fresh tab, active, counter 1. -/
def initialTabState : TabState :=
  { tabCounter := 1, tabs := [1], activeTabId := 1 }

/-- The tab-list invariant: a non-empty duplicate-free tab list whose
ids are bounded by the counter, with the active id present. -/
def TabInvariant (s : TabState) : Prop :=
  s.tabs ≠ [] ∧ s.activeTabId ∈ s.tabs ∧ s.tabs.Nodup ∧
    ∀ t ∈ s.tabs, t ≤ s.tabCounter

instance (s : TabState) : Decidable (TabInvariant s) := by
  unfold TabInvariant; infer_instance

/-! ## Query history (`QueryInterface.svelte`) -/

/-- `addToHistory(sql)`: trim; when non-empty and not already present,
prepend it, keeping at most the first 19 previous entries
(`queryHistory.slice(0, 19)`). -/
def addToHistory (sql : String) (history : List String) : List String :=
  let trimmedSql := jsTrim sql
  if trimmedSql ≠ "" ∧ trimmedSql ∉ history then
    trimmedSql :: history.take 19
  else history

/-- The history invariant maintained by `addToHistory`: duplicate-free,
at most 20 entries, each a trimmed non-empty string. -/
def HistoryInvariant (h : List String) : Prop :=
  h.Nodup ∧ h.length ≤ 20 ∧ ∀ q ∈ h, jsTrim q = q ∧ q ≠ ""

/-! ## Export decision (`ExportDialog` in the SchemaPanel source) -/

/-- The export dialog's format radio. -/
inductive ExportFormat where
  | csv : ExportFormat
  | json : ExportFormat
deriving Repr, DecidableEq

/-- The export dialog's scope radio: current view or all rows. -/
inductive ExportScope where
  | current : ExportScope
  | all : ExportScope
deriving Repr, DecidableEq

/-- Which path `handleExport` takes. -/
inductive ExportMethod where
  | native : ExportMethod
  | stream : ExportMethod
  | currentView : ExportMethod
deriving Repr, DecidableEq

/-- `totalRows = metadata?.total_rows || currentRows` — JS `||` falls
back on a missing metadata object and on a falsy (zero) count. -/
def totalRowsOf (metadataTotalRows : Option Nat) (currentRows : Nat) : Nat :=
  match metadataTotalRows with
  | some n => if n = 0 then currentRows else n
  | none => currentRows

/-- The decision chain of `handleExport`: native COPY when exporting all
rows of a large (> 10000) result as CSV with native copy enabled;
otherwise backend streaming when exporting all rows and more rows exist
than are in memory; otherwise the in-memory current view. -/
def exportMethod (scope : ExportScope) (format : ExportFormat)
    (useNativeCopy : Bool) (totalRows currentRows : Nat) : ExportMethod :=
  if scope = .all && decide (totalRows > 10000) && useNativeCopy && format = .csv then
    .native
  else if scope = .all && decide (totalRows > currentRows) then
    .stream
  else
    .currentView

/-! ## CSV writers -/

/-- JS `str.replace(/"/g, String.fromCharCode(34, 34))`: double every
double quote, at the character-list level. -/
def escQuotesList : List Char → List Char
  | [] => []
  | c :: cs => if c = '"' then '"' :: '"' :: escQuotesList cs else c :: escQuotesList cs

/-- Quote-doubling on strings. -/
def escQuotes (s : String) : String :=
  ⟨escQuotesList s.data⟩

/-- JS `Array.prototype.join(sep)`. -/
def joinWith (sep : String) : List String → String
  | [] => ""
  | [a] => a
  | a :: b :: rest => a ++ sep ++ joinWith sep (b :: rest)

/-- One cell of `exportCurrentAsCSV` (export dialog): `null` becomes the
bare token `NULL`; objects become their JSON serialization verbatim;
scalar values are stringified and quoted (with quotes doubled) when
`quoteAllValues` is set or the text contains a comma, double quote or
newline. -/
def csvField (quoteAllValues : Bool) (v : JsValue) : String :=
  match v with
  | .vNull => "NULL"
  | .vJson j => j
  | v =>
    let strValue := jsString v
    if quoteAllValues || jsIncludesChar strValue ',' ||
        jsIncludesChar strValue '"' || jsIncludesChar strValue '\n' then
      "\"" ++ escQuotes strValue ++ "\""
    else strValue

/-- One row of `exportCurrentAsCSV`, joined with commas. -/
def csvRowLine (quoteAllValues : Bool) (row : List JsValue) : String :=
  joinWith "," (row.map (csvField quoteAllValues))

/-- `exportCurrentAsCSV`: the headers are `Object.keys(results[0])`; the
header line is included iff `includeHeaders`. -/
def exportCurrentAsCSV (includeHeaders quoteAllValues : Bool)
    (headers : List String) (rows : List (List JsValue)) : String :=
  let rowLines := rows.map (csvRowLine quoteAllValues)
  if includeHeaders then
    joinWith "\n" (joinWith "," headers :: rowLines)
  else
    joinWith "\n" rowLines

/-- One cell of the data grid's `exportToCsv`: as `csvField` but with no
`quoteAllValues` option and no newline test. -/
def exportToCsvField (v : JsValue) : String :=
  match v with
  | .vNull => "NULL"
  | .vJson j => j
  | v =>
    let strValue := jsString v
    if jsIncludesChar strValue ',' || jsIncludesChar strValue '"' then
      "\"" ++ escQuotes strValue ++ "\""
    else strValue

/-- One row of the data grid's `exportToCsv`. -/
def exportToCsvRowLine (row : List JsValue) : String :=
  joinWith "," (row.map exportToCsvField)

/-- The data grid's `exportToCsv`: returns early (no file) when there is
no data; otherwise the header line followed by one line per row. -/
def exportToCsv (headers : List String) (rows : List (List JsValue)) :
    Option String :=
  if rows = [] then none
  else some (joinWith "\n"
    (joinWith "," headers :: rows.map exportToCsvRowLine))

/-- The text both writers print for a value once unquoted: `NULL` for
null, the JSON serialization for objects, `String(value)` otherwise.
A CSV reader that reproduces "the original values" reproduces exactly
these strings. -/
def csvRep (v : JsValue) : String :=
  match v with
  | .vNull => "NULL"
  | .vJson j => j
  | v => jsString v

/-! ## A standard CSV reader

`csvParse` reads a CSV document by the usual rules: fields are separated
by commas, records by newlines, a field may be wrapped in double quotes
(in which case embedded quotes are doubled and embedded commas/newlines
are literal).  It is the reader against which the round-trip claim is
judged. -/

/-- Reader state machine.  `inQuotes` is the quoting state, `field` the
current field (reversed), `record` the current record (reversed),
`acc` the finished records (reversed). -/
def csvParseAux : List Char → Bool → List Char → List String →
    List (List String) → List (List String)
  | [], _, field, record, acc =>
    if field = [] ∧ record = [] then acc.reverse
    else ((⟨field.reverse⟩ :: record).reverse :: acc).reverse
  | '"' :: '"' :: rest, true, field, record, acc =>
    csvParseAux rest true ('"' :: field) record acc
  | '"' :: rest, true, field, record, acc =>
    csvParseAux rest false field record acc
  | c :: rest, true, field, record, acc =>
    csvParseAux rest true (c :: field) record acc
  | '"' :: rest, false, field, record, acc =>
    csvParseAux rest true field record acc
  | ',' :: rest, false, field, record, acc =>
    csvParseAux rest false [] (⟨field.reverse⟩ :: record) acc
  | '\n' :: rest, false, field, record, acc =>
    csvParseAux rest false [] [] ((⟨field.reverse⟩ :: record).reverse :: acc)
  | c :: rest, false, field, record, acc =>
    csvParseAux rest false (c :: field) record acc

/-- Parse a CSV document into its records. -/
def csvParse (s : String) : List (List String) :=
  csvParseAux s.data false [] [] []

/-- Text that never needs CSV quoting: free of comma, quote and
newline. -/
def cleanText (s : String) : Prop :=
  ',' ∉ s.data ∧ '"' ∉ s.data ∧ '\n' ∉ s.data

instance (s : String) : Decidable (cleanText s) := by
  unfold cleanText; infer_instance

/-- The values for which the data grid's CSV output is faithfully
re-readable: JSON serializations must be non-empty and clean, and
scalar renderings must not embed a raw newline. -/
def valueOk : JsValue → Prop
  | .vNull => True
  | .vJson j => j ≠ "" ∧ cleanText j
  | v => '\n' ∉ (jsString v).data

instance (v : JsValue) : Decidable (valueOk v) := by
  cases v <;> (unfold valueOk; infer_instance)

/-! ## Sample data used by witness statements -/

/-- A stored connection used in concrete instantiations. -/
def sampleConnA : DatabaseConnection :=
  { id := "a", name := "A", host := "h", port := 5432,
    database := "d", username := "u" }

/-- A second stored connection used in concrete instantiations. -/
def sampleConnB : DatabaseConnection :=
  { id := "b", name := "B", host := "h2", port := 5433,
    database := "d2", username := "v" }

/-- A store state with two stored connections, the first one active. -/
def sampleState : StoreState :=
  { connections := [sampleConnA, sampleConnB],
    connectionStatus :=
      { isConnected := true, activeConnection := some sampleConnA,
        error := none } }

end QueryOwl

namespace QueryOwl

/-! # Theorems -/

/-! ## Auxiliary lemmas on the JS helpers -/

theorem dropWhile_eq_self_of_prefix {α : Type} (p : α → Bool)
    (l₁ l₂ : List α) (hpre : l₁ <+: l₂) (h : l₂.dropWhile p = l₂) :
    l₁.dropWhile p = l₁ := by
  cases l₁ with
  | nil => simp
  | cons a t =>
    obtain ⟨s, hs⟩ := hpre
    have hshape : l₂ = a :: (t ++ s) := by rw [← hs]; simp
    subst hshape
    rw [List.dropWhile_cons] at h ⊢
    by_cases hpa : p a
    · simp only [hpa, if_true] at h
      have hlen := congrArg List.length h
      have hle : (List.dropWhile p (t ++ s)).length ≤ (t ++ s).length :=
        (List.dropWhile_suffix p).sublist.length_le
      simp [List.length_append] at hlen hle
      omega
    · simp [hpa]

theorem jsTrimList_idem (cs : List Char) :
    jsTrimList (jsTrimList cs) = jsTrimList cs := by
  have hrd : ∀ l : List Char,
      jsTrimList l = List.rdropWhile isJsWhitespace (l.dropWhile isJsWhitespace) := by
    intro l; rfl
  rw [hrd, hrd]
  have hdself :
      (cs.dropWhile isJsWhitespace).dropWhile isJsWhitespace =
        cs.dropWhile isJsWhitespace := List.dropWhile_idempotent _ _
  have htself :
      (List.rdropWhile isJsWhitespace
          (cs.dropWhile isJsWhitespace)).dropWhile isJsWhitespace =
        List.rdropWhile isJsWhitespace (cs.dropWhile isJsWhitespace) :=
    dropWhile_eq_self_of_prefix _ _ _ (List.rdropWhile_prefix _ _) hdself
  rw [htself]
  exact List.rdropWhile_idempotent _ _

theorem jsTrim_idem (s : String) : jsTrim (jsTrim s) = jsTrim s :=
  congrArg String.mk (jsTrimList_idem s.data)

/-! ## C1: export decision policy -/

/-- C1 counterexample.  The claim says every all-rows export outside the
native bulk-copy case invokes the streaming path; but with all-rows
scope, CSV format, native copy off and a total row count (5) not
exceeding the in-memory row count (5), `handleExport` takes the
in-memory current-view path, not the streaming path. -/
theorem handleExport_allRows_small_not_streamed :
    exportMethod ExportScope.all ExportFormat.csv false 5 5 =
      ExportMethod.currentView ∧
    ExportMethod.currentView ≠ ExportMethod.stream := by
  decide

/-- C1 (amended).  `handleExport`'s decision: current-view scope always
formats the in-memory rows; all-rows with CSV, native copy and more than
10000 total rows uses the native bulk-copy path; otherwise all-rows
streams from the backend only when the total row count exceeds the
in-memory row count, and falls back to the in-memory current-view path
when it does not. -/
theorem exportMethod_decision_policy (scope : ExportScope)
    (format : ExportFormat) (unc : Bool) (tr cr : Nat) :
    (scope = ExportScope.current →
      exportMethod scope format unc tr cr = ExportMethod.currentView) ∧
    (scope = ExportScope.all → 10000 < tr → unc = true →
      format = ExportFormat.csv →
      exportMethod scope format unc tr cr = ExportMethod.native) ∧
    (scope = ExportScope.all →
      ¬(10000 < tr ∧ unc = true ∧ format = ExportFormat.csv) → cr < tr →
      exportMethod scope format unc tr cr = ExportMethod.stream) ∧
    (scope = ExportScope.all →
      ¬(10000 < tr ∧ unc = true ∧ format = ExportFormat.csv) → tr ≤ cr →
      exportMethod scope format unc tr cr = ExportMethod.currentView) := by
  cases scope <;> cases format <;> cases unc <;>
    (simp only [exportMethod] ; split_ifs with h1 h2) <;>
    simp_all +decide

/-- C1 witness: a concrete all-rows JSON export with 500 of 100 rows in
memory goes to the streaming path. -/
theorem exportMethod_decision_policy_witness :
    exportMethod ExportScope.all ExportFormat.json false 500 100 =
      ExportMethod.stream :=
  (exportMethod_decision_policy ExportScope.all ExportFormat.json false
      500 100).2.2.1 rfl (by simp) (by omega)

/-! ## C5: activation atomicity -/

/-- C5 counterexample.  With connection `a` active, a failing
`connectToDatabase` on connection `b` does not leave the recorded
active-connection state unchanged: it resets the status to disconnected
with no active connection. -/
theorem connect_failure_clobbers_status :
    (connectToDatabase sampleState sampleConnB
        (Except.error "connection refused") (Except.ok ()) "t").1.connectionStatus ≠
      sampleState.connectionStatus := by
  decide

/-- C5 (amended).  When the backend connect fails, `connectToDatabase`
leaves the stored connection list unchanged, but resets the recorded
status to disconnected — discarding any previously active connection —
stores the stringified error, and rethrows it. -/
theorem connectToDatabase_failure_behavior (s : StoreState)
    (conn : DatabaseConnection) (e : String) (touch : Invoked Unit)
    (now : String) :
    (connectToDatabase s conn (Except.error e) touch now).1.connections =
      s.connections ∧
    (connectToDatabase s conn (Except.error e) touch now).1.connectionStatus =
      { isConnected := false, activeConnection := none, error := some e } ∧
    (connectToDatabase s conn (Except.error e) touch now).2 =
      Except.error e := by
  simp [connectToDatabase]

/-! ## C6: deleteConnection -/

/-- C6.  On a successful backend delete, the deleted connection's
metadata is removed and every other stored connection is kept; when the
deleted id was the active one, the recorded active connection is cleared
(disconnected); otherwise the status is untouched.  In either case no
recorded active connection references the deleted id afterwards. -/
theorem deleteConnection_spec (s : StoreState) (id : String) :
    ((deleteConnection s (Except.ok ()) id).1.connections =
      s.connections.filter (fun c => c.id ≠ id)) ∧
    (∀ c ∈ (deleteConnection s (Except.ok ()) id).1.connections, c.id ≠ id) ∧
    (∀ c ∈ s.connections, c.id ≠ id →
      c ∈ (deleteConnection s (Except.ok ()) id).1.connections) ∧
    (s.connectionStatus.activeConnection.map (fun c => c.id) = some id →
      (deleteConnection s (Except.ok ()) id).1.connectionStatus =
        { isConnected := false, activeConnection := none, error := none }) ∧
    (s.connectionStatus.activeConnection.map (fun c => c.id) ≠ some id →
      (deleteConnection s (Except.ok ()) id).1.connectionStatus =
        s.connectionStatus) ∧
    ((deleteConnection s (Except.ok ()) id).1.connectionStatus.activeConnection.map
        (fun c => c.id) ≠ some id) := by
  unfold deleteConnection
  by_cases hact : s.connectionStatus.activeConnection.map (fun c => c.id) = some id
  · refine ⟨by simp [hact], ?_, ?_, by simp [hact], by simp [hact], by simp [hact]⟩
    · intro c hc
      simp [hact, List.mem_filter] at hc
      exact hc.2
    · intro c hc hne
      simp [hact, List.mem_filter]
      exact ⟨hc, hne⟩
  · refine ⟨by simp [hact], ?_, ?_, by simp [hact], by simp [hact], by simp [hact]⟩
    · intro c hc
      simp [hact, List.mem_filter] at hc
      exact hc.2
    · intro c hc hne
      simp [hact, List.mem_filter]
      exact ⟨hc, hne⟩

/-- C6 witness: deleting the active connection `a` from the sample state
clears the recorded active connection. -/
theorem deleteConnection_spec_witness :
    (deleteConnection sampleState (Except.ok ()) "a").1.connectionStatus =
      { isConnected := false, activeConnection := none, error := none } :=
  (deleteConnection_spec sampleState "a").2.2.2.1 (by decide)

/-! ## C7: testConnection -/

/-- C7.  `testConnection` never mutates the store state (both the stored
connection list and the connection status are returned unchanged), and a
thrown backend error is converted to a `success := false` response with
the stringified message instead of propagating. -/
theorem testConnection_pure (s : StoreState)
    (outcome : Invoked TestConnectionResponse) :
    ((testConnection s outcome).1 = s) ∧
    (∀ e, outcome = Except.error e →
      (testConnection s outcome).2 = { success := false, error := some e }) ∧
    (∀ r, outcome = Except.ok r → (testConnection s outcome).2 = r) := by
  cases outcome <;> simp [testConnection]

/-- C7 witness: a failing probe against the sample state leaves it
unchanged and yields a `success := false` response with the message. -/
theorem testConnection_pure_witness :
    (testConnection sampleState (Except.error "auth failed")).1 = sampleState ∧
    (testConnection sampleState (Except.error "auth failed")).2 =
      { success := false, error := some "auth failed" } :=
  ⟨(testConnection_pure sampleState (Except.error "auth failed")).1,
   (testConnection_pure sampleState (Except.error "auth failed")).2.1
     "auth failed" rfl⟩

/-! ## C8: connection form validation -/

/-- C8 counterexample.  A submission whose port (70000) lies outside the
valid TCP range, with all text fields filled, passes `handleSubmit`'s
guard and proceeds to persistence: the port is never validated. -/
theorem handleSubmit_port_not_validated :
    handleSubmitProceeds
      { name := "prod", host := "db.example.com", port := 70000,
        database := "app", username := "admin", password := "pw" } = true ∧
    ¬((1 : Int) ≤ 70000 ∧ (70000 : Int) ≤ 65535) := by
  decide

/-- C8 (amended).  `handleSubmit` proceeds to persistence exactly when
`name`, `host`, `database`, `username` and `password` are all non-empty;
the port value is not inspected at all. -/
theorem handleSubmit_validation (f : CreateConnectionRequest) :
    (handleSubmitProceeds f = true ↔
      (f.name ≠ "" ∧ f.host ≠ "" ∧ f.database ≠ "" ∧ f.username ≠ "" ∧
        f.password ≠ "")) ∧
    (∀ p : Int, handleSubmitProceeds { f with port := p } =
      handleSubmitProceeds f) := by
  constructor
  · simp [handleSubmitProceeds, and_assoc]
  · intro p; rfl

/-- C8 witness: a fully filled form with port 5432 passes the guard. -/
theorem handleSubmit_validation_witness :
    handleSubmitProceeds
      { name := "local", host := "localhost", port := 5432,
        database := "db", username := "u", password := "s" } = true :=
  (handleSubmit_validation
      { name := "local", host := "localhost", port := 5432,
        database := "db", username := "u", password := "s" }).1.mpr
    (by decide)

/-! ## C2: DDL classification and schema refresh -/

/-- C2 counterexample.  `ALTER INDEX` is one of the leader pairs the
claim lists (CREATE/DROP/ALTER × ... INDEX ...), and
`ALTER INDEX idx RENAME TO idx2` with a single success acknowledgment
starts with it — yet `executeQuery` does not refresh the schema, because
`isSchemaAffectingQuery` has no `ALTER INDEX` prefix in its table. -/
theorem alterIndex_no_schema_refresh :
    "ALTER INDEX" ∈ specClaimedLeaders ∧
    jsStartsWith (jsToUpper (jsTrim "ALTER INDEX idx RENAME TO idx2"))
      "ALTER INDEX" = true ∧
    resultsSuccessful [{ status := some "success" }] = true ∧
    executeQueryRefreshesSchema "ALTER INDEX idx RENAME TO idx2"
      [{ status := some "success" }] = false := by
  decide

/-- C2 (amended).  `executeQuery` refreshes the schema exactly when the
result is a single acknowledgment row with status `success` and the
trimmed, upper-cased SQL starts with one of the prefixes hard-coded in
`isSchemaAffectingQuery` (CREATE/DROP of TABLE, VIEW, MATERIALIZED VIEW,
INDEX, FUNCTION, PROCEDURE, SEQUENCE, TYPE, SCHEMA, CREATE UNIQUE INDEX,
ALTER of TABLE, VIEW, FUNCTION, SEQUENCE, TYPE, SCHEMA, RENAME TABLE,
TRUNCATE TABLE); classification looks only at that leading text. -/
theorem schema_refresh_decision (sql : String) (results : List ResultRow) :
    executeQueryRefreshesSchema sql results = true ↔
      (resultsSuccessful results = true ∧
        ∃ p ∈ ddlLeaders, jsStartsWith (jsToUpper (jsTrim sql)) p = true) := by
  unfold executeQueryRefreshesSchema isSchemaAffectingQuery
  rw [show jsTrim (jsTrim sql) = jsTrim sql from
    congrArg String.mk (jsTrimList_idem sql.data)]
  by_cases hs : resultsSuccessful results = true
  · simp [hs, List.any_eq_true]
  · simp [hs]

/-- C2 witness: a successful `CREATE TABLE` acknowledgment triggers the
schema refresh. -/
theorem schema_refresh_decision_witness :
    executeQueryRefreshesSchema "create table demo(id int)"
      [{ status := some "success" }] = true :=
  (schema_refresh_decision "create table demo(id int)"
      [{ status := some "success" }]).mpr
    ⟨by decide, "CREATE TABLE", by decide, by decide⟩

/-! ## C10: query history -/

/-- C10.  `addToHistory` leaves the history unchanged on a
whitespace-only input or an already-present (trimmed) query; a fresh
non-empty trimmed query is prepended on top of at most the 19 most
recent previous entries; and the invariant — duplicate-free, at most 20
entries, all trimmed and non-empty — is preserved. -/
theorem addToHistory_spec (sql : String) (history : List String) :
    (jsTrim sql = "" → addToHistory sql history = history) ∧
    (jsTrim sql ∈ history → addToHistory sql history = history) ∧
    (jsTrim sql ≠ "" → jsTrim sql ∉ history →
      addToHistory sql history = jsTrim sql :: history.take 19) ∧
    (HistoryInvariant history → HistoryInvariant (addToHistory sql history)) := by
  refine ⟨?_, ?_, ?_, ?_⟩
  · intro h; simp [addToHistory, h]
  · intro h; simp [addToHistory, h]
  · intro h1 h2; simp [addToHistory, h1, h2]
  · intro hinv
    unfold addToHistory
    simp only []
    split_ifs with hc
    · obtain ⟨hne, hnotmem⟩ := hc
      obtain ⟨hnd, hlen, hq⟩ := hinv
      refine ⟨?_, ?_, ?_⟩
      · exact List.Nodup.cons
          (fun hmem => hnotmem (List.take_subset 19 history hmem))
          (hnd.sublist (List.take_sublist 19 history))
      · have := List.length_take_le 19 history
        simp only [List.length_cons]
        omega
      · intro q hq2
        rcases List.mem_cons.mp hq2 with h | h
        · subst h; exact ⟨jsTrim_idem sql, hne⟩
        · exact hq q (List.take_subset 19 history h)
    · exact hinv

/-- C10 witness: adding an untrimmed fresh query prepends its trimmed
form; a whitespace-only query is a no-op. -/
theorem addToHistory_spec_witness :
    addToHistory "  SELECT 1  " ["SELECT 2"] = ["SELECT 1", "SELECT 2"] ∧
    addToHistory "   " ["SELECT 2"] = ["SELECT 2"] :=
  ⟨by
    have h := (addToHistory_spec "  SELECT 1  " ["SELECT 2"]).2.2.1
      (by decide) (by decide)
    simpa using h,
   (addToHistory_spec "   " ["SELECT 2"]).1 (by decide)⟩

/-! ## C3: CSV formatting rules of the export dialog -/

/-- C3 counterexample.  With `quoteAllValues = true` a null cell is
still written as the bare three-letter token `NULL` with no double quote
anywhere in the field — refuting both "every field is quoted regardless
of content" and the `unless quoteAllValues` qualification on the NULL
token. -/
theorem quoteAllValues_null_unquoted :
    csvField true JsValue.vNull = "NULL" ∧
    jsIncludesChar (csvField true JsValue.vNull) '"' = false := by
  decide

/-- C3 (amended).  `exportCurrentAsCSV` field rules: a null cell is
always the bare token `NULL`, even under `quoteAllValues`; an
object/JSON cell is its JSON serialization verbatim, never quoted or
escaped; a scalar cell is quoted with internal quotes doubled exactly
when `quoteAllValues` is set or its text contains a comma, double quote
or newline, and written verbatim otherwise.  The header line is the
column names joined by commas in original order, present iff
`includeHeaders`. -/
theorem csvField_formatting_rules (qa : Bool) (j : String) (v : JsValue)
    (headers : List String) (rows : List (List JsValue)) :
    (csvField qa JsValue.vNull = "NULL") ∧
    (csvField qa (JsValue.vJson j) = j) ∧
    (isScalar v = true →
      ((qa = true ∨ jsIncludesChar (jsString v) ',' = true ∨
          jsIncludesChar (jsString v) '"' = true ∨
          jsIncludesChar (jsString v) '\n' = true) →
        csvField qa v = "\"" ++ escQuotes (jsString v) ++ "\"") ∧
      (qa = false → jsIncludesChar (jsString v) ',' = false →
        jsIncludesChar (jsString v) '"' = false →
        jsIncludesChar (jsString v) '\n' = false →
        csvField qa v = jsString v)) ∧
    (exportCurrentAsCSV true qa headers rows =
      joinWith "\n" (joinWith "," headers :: rows.map (csvRowLine qa))) ∧
    (exportCurrentAsCSV false qa headers rows =
      joinWith "\n" (rows.map (csvRowLine qa))) := by
  refine ⟨rfl, rfl, ?_, rfl, rfl⟩
  intro hv
  constructor
  · intro hcond
    rcases hcond with h | h | h | h <;>
      cases v <;> simp_all [csvField, isScalar]
  · intro h0 h1 h2 h3
    cases v <;> simp_all [csvField, isScalar]

/-- C3 witness: a scalar containing a comma is quoted with its internal
quote doubled. -/
theorem csvField_formatting_rules_witness :
    csvField false (JsValue.vStr "a,\"b") = "\"a,\"\"b\"" := by
  have h := ((csvField_formatting_rules false "" (JsValue.vStr "a,\"b")
      [] []).2.2.1 (by decide)).1 (Or.inr (Or.inl (by decide)))
  rw [h]; decide

/-! ## C9: tab-list invariant -/

theorem findIdx_append_cons {pre post : List Nat} {id : Nat} (h : id ∉ pre) :
    (pre ++ id :: post).findIdx (fun t => t = id) = pre.length := by
  induction pre with
  | nil => simp [List.findIdx_cons]
  | cons a t ih =>
    have ha : ¬(a = id) := fun heq => h (heq ▸ List.mem_cons_self a t)
    have ht : id ∉ t := fun hm => h (List.mem_cons_of_mem a hm)
    simp [List.findIdx_cons, ha, ih ht]

theorem filter_ne_append_cons {pre post : List Nat} {id : Nat}
    (hpre : id ∉ pre) (hpost : id ∉ post) :
    (pre ++ id :: post).filter (fun t => t ≠ id) = pre ++ post := by
  induction pre with
  | nil =>
    rw [List.nil_append, List.nil_append,
      List.filter_cons_of_neg (by simp)]
    exact List.filter_eq_self.mpr (fun a ha => by
      simp only [decide_eq_true_eq]
      exact fun heq => hpost (heq ▸ ha))
  | cons a t ih =>
    have ha : ¬(a = id) := fun heq => hpre (heq ▸ List.mem_cons_self a t)
    have ht : id ∉ t := fun hm => hpre (List.mem_cons_of_mem a hm)
    rw [List.cons_append, List.filter_cons_of_pos (by simpa using ha),
      ih ht, List.cons_append]

theorem createNewTab_invariant (s : TabState) (hnd : s.tabs.Nodup)
    (hbd : ∀ t ∈ s.tabs, t ≤ s.tabCounter) :
    TabInvariant (createNewTab s) := by
  refine ⟨by simp [createNewTab], by simp [createNewTab], ?_, ?_⟩
  · have hfresh : s.tabCounter + 1 ∉ s.tabs := fun hm => by
      have := hbd _ hm; omega
    simpa [createNewTab, List.nodup_append] using ⟨hnd, hfresh⟩
  · intro t ht
    simp [createNewTab] at ht
    rcases ht with h | h
    · have := hbd t h; simp [createNewTab]; omega
    · simp [createNewTab, h]

theorem closeTab_invariant (s : TabState) (id : Nat) (h : TabInvariant s) :
    TabInvariant (closeTab s id) := by
  obtain ⟨hne, hmem, hnd, hbd⟩ := h
  unfold closeTab
  by_cases hid : id ∈ s.tabs
  · rw [if_pos hid]
    by_cases hact : s.activeTabId = id
    · rw [if_pos hact]
      by_cases hlen : 0 < (s.tabs.filter (fun t => t ≠ id)).length
      · rw [if_pos hlen]
        have hsub : (s.tabs.filter (fun t => t ≠ id)).Sublist s.tabs :=
          List.filter_sublist _
        have hidx : ((max 0 (min ((s.tabs.findIdx (fun t => t = id) : Int) - 1)
            (((s.tabs.filter (fun t => t ≠ id)).length : Int) - 1))).toNat) <
            (s.tabs.filter (fun t => t ≠ id)).length := by omega
        refine ⟨?_, ?_, hnd.sublist hsub, ?_⟩
        · show s.tabs.filter (fun t => t ≠ id) ≠ []
          intro hnil; rw [hnil] at hlen; simp at hlen
        · show (s.tabs.filter (fun t => t ≠ id)).getD _ s.activeTabId ∈
            s.tabs.filter (fun t => t ≠ id)
          rw [List.getD_eq_getElem _ _ hidx]
          exact List.getElem_mem _
        · intro t ht
          exact hbd t (hsub.subset ht)
      · rw [if_neg hlen]
        have hnil : s.tabs.filter (fun t => t ≠ id) = [] := by
          cases hfe : s.tabs.filter (fun t => t ≠ id) with
          | nil => rfl
          | cons a l => rw [hfe] at hlen; simp at hlen
        rw [hnil]
        exact createNewTab_invariant _ (by simp) (by simp)
    · rw [if_neg hact]
      have hactmem : s.activeTabId ∈ s.tabs.filter (fun t => t ≠ id) := by
        rw [List.mem_filter]
        exact ⟨hmem, by simpa using hact⟩
      refine ⟨List.ne_nil_of_mem hactmem, hactmem,
        hnd.sublist (List.filter_sublist _), ?_⟩
      intro t ht
      exact hbd t ((List.filter_sublist _).subset ht)
  · rw [if_neg hid]
    exact ⟨hne, hmem, hnd, hbd⟩

theorem runTabOps_invariant (ops : List TabOp) (s : TabState)
    (h : TabInvariant s) : TabInvariant (runTabOps s ops) := by
  induction ops generalizing s with
  | nil => exact h
  | cons op ops ih =>
    refine ih _ ?_
    cases op with
    | create => exact createNewTab_invariant s h.2.2.1 h.2.2.2
    | close id => exact closeTab_invariant s id h

/-- C9.  Any sequence of tab creations and closings from the freshly
initialized state keeps the tab list non-empty, duplicate-free, and the
active id present in it.  Closing the active tab (occurring once, at
position `pre.length`) keeps the other tabs in order and activates the
tab to its left — the last of `pre` — or the first remaining tab when it
was leftmost; closing the last remaining tab replaces it by a freshly
numbered tab which becomes active. -/
theorem tab_list_invariant (ops : List TabOp) (s : TabState) (id : Nat)
    (pre post : List Nat) :
    TabInvariant (runTabOps initialTabState ops) ∧
    (s.tabs = pre ++ id :: post → id ∉ pre → id ∉ post →
      s.activeTabId = id → pre ++ post ≠ [] →
      (closeTab s id).tabs = pre ++ post ∧
      (closeTab s id).activeTabId = (pre ++ post).getD (pre.length - 1) 0) ∧
    (s.tabs = [id] → s.activeTabId = id →
      closeTab s id =
        { tabCounter := s.tabCounter + 1, tabs := [s.tabCounter + 1],
          activeTabId := s.tabCounter + 1 }) := by
  refine ⟨runTabOps_invariant ops _ (by decide), ?_, ?_⟩
  · intro htabs hpre hpost hact hnil
    have hid : id ∈ s.tabs := by rw [htabs]; simp
    have hfilter : s.tabs.filter (fun t => t ≠ id) = pre ++ post := by
      rw [htabs]; exact filter_ne_append_cons hpre hpost
    have hfind : s.tabs.findIdx (fun t => t = id) = pre.length := by
      rw [htabs]; exact findIdx_append_cons hpre
    have hlen0 : 0 < (pre ++ post).length := by
      cases hpp : pre ++ post with
      | nil => exact absurd hpp hnil
      | cons a l => simp
    have hlen : 0 < (s.tabs.filter (fun t => t ≠ id)).length := by
      rw [hfilter]; exact hlen0
    unfold closeTab
    rw [if_pos hid, if_pos hact, if_pos hlen]
    refine ⟨hfilter, ?_⟩
    show (s.tabs.filter (fun t => t ≠ id)).getD
        ((max 0 (min ((s.tabs.findIdx (fun t => t = id) : Int) - 1)
          (((s.tabs.filter (fun t => t ≠ id)).length : Int) - 1))).toNat)
        s.activeTabId = (pre ++ post).getD (pre.length - 1) 0
    rw [hfilter, hfind]
    have hidx : ((max 0 (min ((pre.length : Int) - 1)
        (((pre ++ post).length : Int) - 1))).toNat) = pre.length - 1 := by
      rw [List.length_append] at hlen0 ⊢
      omega
    rw [hidx]
    have hlt : pre.length - 1 < (pre ++ post).length := by
      rw [List.length_append] at hlen0 ⊢
      omega
    rw [List.getD_eq_getElem _ _ hlt, List.getD_eq_getElem _ _ hlt]
  · intro htabs hact
    have hid : id ∈ s.tabs := by rw [htabs]; simp
    have hfilter : s.tabs.filter (fun t => t ≠ id) = [] := by
      rw [htabs]; simp
    have hlen : ¬(0 < (s.tabs.filter (fun t => t ≠ id)).length) := by
      rw [hfilter]; simp
    unfold closeTab
    rw [if_pos hid, if_pos hact, if_neg hlen, hfilter]
    simp [createNewTab]

/-- C9 witness: from a three-tab state with the middle tab active,
closing it activates the tab to its left; closing the only tab of a
one-tab state creates fresh tab 4 which becomes active. -/
theorem tab_list_invariant_witness :
    TabInvariant (runTabOps initialTabState [TabOp.create, TabOp.create]) ∧
    (closeTab { tabCounter := 3, tabs := [1, 2, 3], activeTabId := 2 } 2).tabs =
      [1, 3] ∧
    (closeTab { tabCounter := 3, tabs := [1, 2, 3], activeTabId := 2 } 2).activeTabId = 1 ∧
    closeTab { tabCounter := 3, tabs := [3], activeTabId := 3 } 3 =
      { tabCounter := 4, tabs := [4], activeTabId := 4 } := by
  refine ⟨(tab_list_invariant [TabOp.create, TabOp.create]
      { tabCounter := 3, tabs := [1, 2, 3], activeTabId := 2 } 2 [1] [3]).1, ?_, ?_, ?_⟩
  · exact ((tab_list_invariant [] { tabCounter := 3, tabs := [1, 2, 3], activeTabId := 2 }
      2 [1] [3]).2.1 rfl (by decide) (by decide) rfl (by decide)).1
  · have h := ((tab_list_invariant [] { tabCounter := 3, tabs := [1, 2, 3], activeTabId := 2 }
      2 [1] [3]).2.1 rfl (by decide) (by decide) rfl (by decide)).2
    simpa using h
  · exact (tab_list_invariant [] { tabCounter := 3, tabs := [3], activeTabId := 3 }
      3 [] []).2.2 rfl rfl

/-! ## C4: CSV round-trip -/

/-- C4 counterexample.  A JSON-typed cell whose serialization `[1,2]`
contains a comma is exported verbatim and unquoted by `exportToCsv`, so
a standard CSV reader splits it into two fields: the re-parsed document
is not the original single column of one value. -/
theorem csv_roundTrip_json_comma_fails :
    exportToCsv ["c"] [[JsValue.vJson "[1,2]"]] = some "c\n[1,2]" ∧
    csvParse "c\n[1,2]" = [["c"], ["[1", "2]"]] ∧
    [["c"], ["[1", "2]"]] ≠
      ["c"] :: [[JsValue.vJson "[1,2]"]].map (fun r => r.map csvRep) := by
  refine ⟨rfl, rfl, by decide⟩

theorem data_append (a b : String) : (a ++ b).data = a.data ++ b.data := rfl

theorem csvParseAux_unq_other {c : Char} (h1 : ¬(c = '"')) (h2 : ¬(c = ','))
    (h3 : ¬(c = '\n')) (rest : List Char) (field : List Char)
    (record : List String) (acc : List (List String)) :
    csvParseAux (c :: rest) false field record acc =
      csvParseAux rest false (c :: field) record acc := by
  rw [csvParseAux.eq_def]
  split <;> simp_all

theorem csvParseAux_unq_comma (rest : List Char) (field : List Char)
    (record : List String) (acc : List (List String)) :
    csvParseAux (',' :: rest) false field record acc =
      csvParseAux rest false [] (⟨field.reverse⟩ :: record) acc := rfl

theorem csvParseAux_unq_newline (rest : List Char) (field : List Char)
    (record : List String) (acc : List (List String)) :
    csvParseAux ('\n' :: rest) false field record acc =
      csvParseAux rest false [] []
        ((⟨field.reverse⟩ :: record).reverse :: acc) := rfl

theorem csvParseAux_unq_quote (rest : List Char) (field : List Char)
    (record : List String) (acc : List (List String)) :
    csvParseAux ('"' :: rest) false field record acc =
      csvParseAux rest true field record acc := by
  rw [csvParseAux.eq_def]
  split <;> try simp_all
  all_goals (rename_i heq ; obtain ⟨he, h2⟩ := heq ; subst he ; simp_all)

theorem csvParseAux_q_other {c : Char} (hc : ¬(c = '"')) (rest : List Char)
    (field : List Char) (record : List String) (acc : List (List String)) :
    csvParseAux (c :: rest) true field record acc =
      csvParseAux rest true (c :: field) record acc := by
  rw [csvParseAux.eq_def]
  split <;> simp_all

theorem csvParseAux_q_escaped (rest : List Char) (field : List Char)
    (record : List String) (acc : List (List String)) :
    csvParseAux ('"' :: '"' :: rest) true field record acc =
      csvParseAux rest true ('"' :: field) record acc := rfl

theorem csvParseAux_q_close {rest : List Char} (hrest : rest.head? ≠ some '"')
    (field : List Char) (record : List String) (acc : List (List String)) :
    csvParseAux ('"' :: rest) true field record acc =
      csvParseAux rest false field record acc := by
  cases rest with
  | nil => rfl
  | cons r rest2 =>
    have hr : ¬(r = '"') := by
      intro heq; exact hrest (by rw [heq]; rfl)
    rw [csvParseAux.eq_def]
    split <;> try simp_all
    all_goals (rename_i heq ; obtain ⟨he, h2⟩ := heq ; subst he ; simp_all)

theorem csvParseAux_text (cs : List Char)
    (h : ∀ c ∈ cs, c ≠ ',' ∧ c ≠ '"' ∧ c ≠ '\n') (rest : List Char)
    (field : List Char) (record : List String) (acc : List (List String)) :
    csvParseAux (cs ++ rest) false field record acc =
      csvParseAux rest false (cs.reverse ++ field) record acc := by
  induction cs generalizing field with
  | nil => simp
  | cons c cs ih =>
    obtain ⟨h1, h2, h3⟩ := h c (List.mem_cons_self c cs)
    rw [List.cons_append, csvParseAux_unq_other h2 h1 h3,
      ih (fun x hx => h x (List.mem_cons_of_mem c hx)) (c :: field)]
    simp

theorem exportToCsvField_scalar (v : JsValue) (hs : isScalar v = true) :
    exportToCsvField v =
      if jsIncludesChar (jsString v) ',' || jsIncludesChar (jsString v) '"' then
        "\"" ++ escQuotes (jsString v) ++ "\""
      else jsString v := by
  cases v <;> first | rfl | simp [isScalar] at hs

theorem csvRep_scalar (v : JsValue) (hs : isScalar v = true) :
    csvRep v = jsString v := by
  cases v <;> first | rfl | simp [isScalar] at hs

theorem csvParseAux_quoted (s : List Char) {rest : List Char}
    (hrest : rest.head? ≠ some '"') (field : List Char)
    (record : List String) (acc : List (List String)) :
    csvParseAux (escQuotesList s ++ '"' :: rest) true field record acc =
      csvParseAux rest false (s.reverse ++ field) record acc := by
  induction s generalizing field with
  | nil =>
    rw [show escQuotesList [] = [] from rfl, List.nil_append,
      csvParseAux_q_close hrest]
    simp
  | cons c cs ih =>
    by_cases hc : c = '"'
    · subst hc
      rw [show escQuotesList ('"' :: cs) = '"' :: '"' :: escQuotesList cs from by
        simp [escQuotesList]]
      rw [List.cons_append, List.cons_append, csvParseAux_q_escaped,
        ih ('"' :: field)]
      simp
    · rw [show escQuotesList (c :: cs) = c :: escQuotesList cs from by
        simp [escQuotesList, hc]]
      rw [List.cons_append, csvParseAux_q_other hc, ih (c :: field)]
      simp

theorem csvParseAux_scalar_field (v : JsValue) (hs : isScalar v = true)
    (hnl : '\n' ∉ (jsString v).data) {rest : List Char}
    (hrest : rest.head? ≠ some '"') (field : List Char)
    (record : List String) (acc : List (List String)) :
    csvParseAux ((exportToCsvField v).data ++ rest) false field record acc =
      csvParseAux rest false ((jsString v).data.reverse ++ field) record acc := by
  rw [exportToCsvField_scalar v hs]
  by_cases hq : (jsIncludesChar (jsString v) ',' ||
      jsIncludesChar (jsString v) '"') = true
  · rw [if_pos hq]
    have hdata : ("\"" ++ escQuotes (jsString v) ++ "\"").data ++ rest =
        '"' :: (escQuotesList (jsString v).data ++ '"' :: rest) := by
      simp [data_append, escQuotes, List.append_assoc]
    rw [hdata, csvParseAux_unq_quote, csvParseAux_quoted _ hrest]
  · rw [if_neg hq]
    simp only [Bool.or_eq_true, not_or] at hq
    have hq1 : ',' ∉ (jsString v).data :=
      fun h => hq.1 (by simpa [jsIncludesChar] using h)
    have hq2 : '"' ∉ (jsString v).data :=
      fun h => hq.2 (by simpa [jsIncludesChar] using h)
    exact csvParseAux_text _
      (fun c hc => ⟨fun he => hq1 (he ▸ hc), fun he => hq2 (he ▸ hc),
        fun he => hnl (he ▸ hc)⟩) rest field record acc

theorem csvParseAux_field (v : JsValue) (hok : valueOk v) {rest : List Char}
    (hrest : rest.head? ≠ some '"') (field : List Char)
    (record : List String) (acc : List (List String)) :
    csvParseAux ((exportToCsvField v).data ++ rest) false field record acc =
      csvParseAux rest false ((csvRep v).data.reverse ++ field) record acc := by
  cases v with
  | vNull => exact csvParseAux_text "NULL".data (by decide) rest field record acc
  | vJson j =>
    obtain ⟨hne, hc1, hc2, hc3⟩ := hok
    exact csvParseAux_text j.data
      (fun c hc => ⟨fun h => hc1 (h ▸ hc), fun h => hc2 (h ▸ hc),
        fun h => hc3 (h ▸ hc)⟩) rest field record acc
  | vStr s =>
    exact csvParseAux_scalar_field (JsValue.vStr s) rfl hok hrest field record acc
  | vNum n =>
    exact csvParseAux_scalar_field (JsValue.vNum n) rfl hok hrest field record acc
  | vBool b =>
    exact csvParseAux_scalar_field (JsValue.vBool b) rfl hok hrest field record acc

theorem mk_data (s : String) : (⟨s.data⟩ : String) = s := rfl

theorem string_eq_empty_of_data (s : String) (h : s.data = []) : s = "" := by
  cases s with
  | mk cs => exact congrArg String.mk h

theorem dropLast_map_getLastD {α β : Type} (f : α → β) (v : α) (vs : List α) :
    ((v :: vs).dropLast.map f) ++ [f (vs.getLastD v)] = (v :: vs).map f := by
  induction vs generalizing v with
  | nil => simp
  | cons w ws ih =>
    rw [show (v :: w :: ws).dropLast = v :: (w :: ws).dropLast from rfl,
      List.getLastD_cons, List.map_cons, List.cons_append, ih w]
    rfl

theorem joinWith_data_cons (sep : String) (a b : String) (rest : List String) :
    (joinWith sep (a :: b :: rest)).data =
      a.data ++ sep.data ++ (joinWith sep (b :: rest)).data := by
  rw [joinWith]
  simp [data_append]

theorem csvParseAux_row (vs : List JsValue) (v : JsValue)
    (hokv : valueOk v) (hoks : ∀ w ∈ vs, valueOk w) {rest : List Char}
    (hrest : rest.head? ≠ some '"') (record : List String)
    (acc : List (List String)) :
    csvParseAux ((exportToCsvRowLine (v :: vs)).data ++ rest) false [] record acc =
      csvParseAux rest false ((csvRep (vs.getLastD v)).data.reverse)
        (((v :: vs).dropLast.map csvRep).reverse ++ record) acc := by
  induction vs generalizing v record with
  | nil =>
    rw [show exportToCsvRowLine [v] = exportToCsvField v from rfl,
      csvParseAux_field v hokv hrest]
    simp
  | cons w ws ih =>
    have hline : (exportToCsvRowLine (v :: w :: ws)).data =
        (exportToCsvField v).data ++
          ',' :: (exportToCsvRowLine (w :: ws)).data := by
      rw [show exportToCsvRowLine (v :: w :: ws) =
          joinWith "," (exportToCsvField v :: exportToCsvField w ::
            ws.map exportToCsvField) from rfl,
        joinWith_data_cons]
      simp [List.append_assoc]
      rfl
    rw [hline, List.append_assoc, List.cons_append,
      csvParseAux_field v hokv (by simp), csvParseAux_unq_comma,
      ih w (hoks w (by simp)) (fun x hx => hoks x (by simp [hx]))]
    simp only [List.append_nil, List.reverse_reverse, mk_data, List.getLastD_cons]
    rw [show (v :: w :: ws).dropLast = v :: (w :: ws).dropLast from rfl,
      List.map_cons, List.reverse_cons, List.append_assoc, List.singleton_append]

theorem csvRep_data_ne_nil (v : JsValue) (h : csvRep v ≠ "") :
    (csvRep v).data ≠ [] :=
  fun hd => h (string_eq_empty_of_data _ hd)

theorem row_flush (v : JsValue) (vs : List JsValue) :
    ((⟨((csvRep (vs.getLastD v)).data.reverse).reverse⟩ : String) ::
        (((v :: vs).dropLast.map csvRep).reverse ++ [])).reverse =
      (v :: vs).map csvRep := by
  simp only [List.append_nil, List.reverse_reverse, mk_data, List.reverse_cons]
  exact dropLast_map_getLastD csvRep v vs

theorem csvParseAux_body (rows : List (List JsValue)) (r : List JsValue)
    (hne : ∀ q ∈ r :: rows, q ≠ [])
    (hok : ∀ q ∈ r :: rows, ∀ v ∈ q, valueOk v)
    (hlast : ∀ q ∈ r :: rows, q.length = 1 → ∀ v ∈ q, csvRep v ≠ "")
    (acc : List (List String)) :
    csvParseAux ((joinWith "\n" ((r :: rows).map exportToCsvRowLine)).data)
        false [] [] acc =
      acc.reverse ++ (r :: rows).map (fun q => q.map csvRep) := by
  induction rows generalizing r acc with
  | nil =>
    obtain ⟨v, vs, rfl⟩ : ∃ v vs, r = v :: vs := by
      cases r with
      | nil => exact absurd rfl (hne [] (by simp))
      | cons v vs => exact ⟨v, vs, rfl⟩
    have h0 := @csvParseAux_row vs v (hok (v :: vs) (by simp) v (by simp))
      (fun w hw => hok (v :: vs) (by simp) w (by simp [hw])) []
      (by simp) [] acc
    rw [List.append_nil] at h0
    rw [show joinWith "\n" ([v :: vs].map exportToCsvRowLine) =
      exportToCsvRowLine (v :: vs) from rfl, h0, csvParseAux]
    rw [if_neg ?flush]
    case flush =>
      intro ⟨hf, hr⟩
      cases vs with
      | nil =>
        refine csvRep_data_ne_nil v (hlast [v] (by simp) rfl v (by simp)) ?_
        simpa using hf
      | cons w ws =>
        rw [show (v :: w :: ws).dropLast = v :: (w :: ws).dropLast from rfl] at hr
        simp at hr
    rw [show ((⟨((csvRep (vs.getLastD v)).data.reverse).reverse⟩ : String) ::
        (((v :: vs).dropLast.map csvRep).reverse ++ [])).reverse =
      (v :: vs).map csvRep from row_flush v vs]
    simp
  | cons r2 rows2 ih =>
    obtain ⟨v, vs, rfl⟩ : ∃ v vs, r = v :: vs := by
      cases r with
      | nil => exact absurd rfl (hne [] (by simp))
      | cons v vs => exact ⟨v, vs, rfl⟩
    have hline : (joinWith "\n" (((v :: vs) :: r2 :: rows2).map
        exportToCsvRowLine)).data =
        (exportToCsvRowLine (v :: vs)).data ++
          '\n' :: (joinWith "\n" ((r2 :: rows2).map exportToCsvRowLine)).data := by
      rw [List.map_cons, List.map_cons, joinWith_data_cons]
      simp [List.append_assoc]
      try rfl
    rw [hline, csvParseAux_row vs v (hok (v :: vs) (by simp) v (by simp))
      (fun w hw => hok (v :: vs) (by simp) w (by simp [hw])) (by simp) [] acc,
      csvParseAux_unq_newline,
      show ((⟨((csvRep (vs.getLastD v)).data.reverse).reverse⟩ : String) ::
        (((v :: vs).dropLast.map csvRep).reverse ++ [])).reverse =
        (v :: vs).map csvRep from row_flush v vs,
      ih r2 (fun q hq => hne q (by simp [hq]))
        (fun q hq => hok q (by simp [hq]))
        (fun q hq => hlast q (by simp [hq]))]
    try simp

theorem exportToCsvField_clean_str (h : String) (hc : cleanText h) :
    exportToCsvField (JsValue.vStr h) = h := by
  rw [exportToCsvField_scalar (JsValue.vStr h) rfl]
  rw [if_neg ?cond]
  case cond =>
    simp only [Bool.or_eq_true, not_or, jsIncludesChar, jsString]
    exact ⟨by simpa using hc.1, by simpa using hc.2.1⟩
  rfl

theorem map_field_vStr (headers : List String)
    (h3 : ∀ x ∈ headers, cleanText x) :
    (headers.map JsValue.vStr).map exportToCsvField = headers := by
  induction headers with
  | nil => rfl
  | cons a t ih =>
    rw [List.map_cons, List.map_cons, exportToCsvField_clean_str a (h3 a (by simp)),
      ih (fun x hx => h3 x (by simp [hx]))]

theorem headerRow_eq (headers : List String)
    (h3 : ∀ x ∈ headers, cleanText x) :
    exportToCsvRowLine (headers.map JsValue.vStr) = joinWith "," headers := by
  unfold exportToCsvRowLine
  rw [map_field_vStr headers h3]

/-- C4 (amended).  The data grid's CSV export re-parses to the original
column names and value renderings — null as the literal `NULL` token,
scalars as their JS string form, JSON objects as their serialization —
provided the column names are free of comma/quote/newline, JSON
serializations are non-empty and free of comma/quote/newline, no scalar
rendering embeds a raw newline, every row is non-empty, and no
single-field row renders to an empty line. -/
theorem exportToCsv_roundTrip (headers : List String)
    (rows : List (List JsValue)) (h1 : rows ≠ []) (h2 : headers ≠ [])
    (h3 : ∀ h ∈ headers, cleanText h)
    (h4 : ∀ r ∈ rows, r ≠ [])
    (h5 : ∀ r ∈ rows, ∀ v ∈ r, valueOk v)
    (h6 : ∀ r ∈ rows, r.length = 1 → ∀ v ∈ r, csvRep v ≠ "") :
    ∃ out, exportToCsv headers rows = some out ∧
      csvParse out = headers :: rows.map (fun r => r.map csvRep) := by
  refine ⟨joinWith "\n" (joinWith "," headers :: rows.map exportToCsvRowLine),
    by rw [exportToCsv, if_neg h1], ?_⟩
  obtain ⟨r, rows2, rfl⟩ : ∃ r rows2, rows = r :: rows2 := by
    cases rows with
    | nil => exact absurd rfl h1
    | cons r rows2 => exact ⟨r, rows2, rfl⟩
  obtain ⟨hh, hs, rfl⟩ : ∃ hh hs, headers = hh :: hs := by
    cases headers with
    | nil => exact absurd rfl h2
    | cons hh hs => exact ⟨hh, hs, rfl⟩
  unfold csvParse
  have hdoc : (joinWith "\n" (joinWith "," (hh :: hs) ::
      (r :: rows2).map exportToCsvRowLine)).data =
      (joinWith "," (hh :: hs)).data ++
        '\n' :: (joinWith "\n" ((r :: rows2).map exportToCsvRowLine)).data := by
    rw [List.map_cons, joinWith_data_cons]
    simp [List.append_assoc]
    try rfl
  rw [hdoc, show joinWith "," (hh :: hs) =
      exportToCsvRowLine ((hh :: hs).map JsValue.vStr) from
    (headerRow_eq _ h3).symm]
  rw [show (hh :: hs).map JsValue.vStr =
    JsValue.vStr hh :: hs.map JsValue.vStr from rfl]
  rw [csvParseAux_row (hs.map JsValue.vStr) (JsValue.vStr hh)
    ((h3 hh (by simp)).2.2)
    (fun w hw => by
      obtain ⟨x, hx, rfl⟩ := List.mem_map.mp hw
      exact (h3 x (by simp [hx])).2.2)
    (by simp) [] []]
  rw [csvParseAux_unq_newline,
    show ((⟨((csvRep ((hs.map JsValue.vStr).getLastD
        (JsValue.vStr hh))).data.reverse).reverse⟩ : String) ::
      (((JsValue.vStr hh :: hs.map JsValue.vStr).dropLast.map csvRep).reverse
        ++ [])).reverse =
      (JsValue.vStr hh :: hs.map JsValue.vStr).map csvRep from
    row_flush (JsValue.vStr hh) (hs.map JsValue.vStr)]
  have hmapid : (JsValue.vStr hh :: hs.map JsValue.vStr).map csvRep =
      hh :: hs := by
    rw [show (JsValue.vStr hh :: hs.map JsValue.vStr) =
      (hh :: hs).map JsValue.vStr from rfl, List.map_map]
    rw [show csvRep ∘ JsValue.vStr = id from funext (fun x => rfl),
      List.map_id]
  rw [hmapid, csvParseAux_body rows2 r h4 h5 h6 [hh :: hs]]
  simp

/-- C4 witness: a two-column result with a comma-containing string, a
null, a number and a boolean exports and re-parses to the expected
column names and cell texts. -/
theorem exportToCsv_roundTrip_witness :
    ∃ out, exportToCsv ["a", "b"] [[JsValue.vStr "x,y", JsValue.vNull],
        [JsValue.vNum 3, JsValue.vBool true]] = some out ∧
      csvParse out = [["a", "b"], ["x,y", "NULL"], ["3", "true"]] := by
  obtain ⟨out, ho, hp⟩ := exportToCsv_roundTrip ["a", "b"]
    [[JsValue.vStr "x,y", JsValue.vNull], [JsValue.vNum 3, JsValue.vBool true]]
    (by decide) (by decide) (by decide) (by decide) (by decide) (by decide)
  exact ⟨out, ho, by rw [hp]; rfl⟩

end QueryOwl
